import Mathlib

/-!
Verification of the agent-farmer Session Lifecycle & Workspace Isolation Engine.

Shallow embedding of the workspace manager (`session/git/worktree_git.go`),
the repository default-branch cache (`config`), and the relevant parts of the
application loop (`app/app.go`).

External tools (git, gh) are modelled as an execution oracle
`Exec σ : σ → Invocation → ExecResult × σ`: the oracle receives the invocation
(tool, working directory, argument list) exactly as the Go code builds it with
`exec.Command`, and returns the combined output together with a success flag,
possibly updating an abstract world state `σ`.  Every operation returns, along
with its result, the ordered trace of external-tool invocations and
process-wide mutex events it performed, so that ordering, locking, and
"zero mutating invocations" properties can be stated.
-/

namespace AgentFarmer

/-- One external-tool invocation: the tool binary, the working directory it is
run in (`-C path` for git via `runGitCommand`, `cmd.Dir` otherwise), and its
argument list. -/
structure Invocation where
  tool : String
  dir : String
  args : List String
deriving Repr, DecidableEq

/-- Result of one external-tool invocation: exit-status success flag and the
combined standard/error output. -/
structure ExecResult where
  ok : Bool
  output : String
deriving Repr, DecidableEq

/-- Observable events of an operation: an external-tool invocation, or taking /
releasing the process-wide `gitMutex`. -/
inductive Event where
  | invoke : Invocation → Event
  | lockAcquire : Event
  | lockRelease : Event
deriving Repr, DecidableEq

/-- Whether an invocation can write repository state (spec section 5: the
subcommands that the mutual-exclusion discipline applies to are stage, commit,
fetch, rebase, push, and the remote-publish sync). -/
def Invocation.mutating : Invocation → Bool
  | ⟨"git", _, "add" :: _⟩ => true
  | ⟨"git", _, "commit" :: _⟩ => true
  | ⟨"git", _, "fetch" :: _⟩ => true
  | ⟨"git", _, "rebase" :: _⟩ => true
  | ⟨"git", _, "push" :: _⟩ => true
  | ⟨"gh", _, "repo" :: _⟩ => true
  | _ => false

/-- Event is an external-tool invocation. -/
def Event.isInvoke : Event → Bool
  | .invoke _ => true
  | _ => false

/-- Event is an invocation that mutates repository state. -/
def Event.mutatingInvoke : Event → Bool
  | .invoke i => i.mutating
  | _ => false

/-- The external world: an oracle mapping an invocation to its result, possibly
changing the world state. -/
abbrev Exec (σ : Type) := σ → Invocation → ExecResult × σ

/-- A static environment: each invocation has a fixed response, the world never
changes.  Used to instantiate `Exec` for trace/ordering claims. -/
abbrev StaticEnv := Invocation → ExecResult

/-- Run a static environment as an `Exec`. -/
def staticExec : Exec StaticEnv := fun env i => (env i, env)

/-- Go's `strings.TrimSpace`: drop whitespace from both ends (structurally
recursive so that concrete runs reduce in the kernel). -/
def strTrim (s : String) : String :=
  ⟨((s.data.dropWhile Char.isWhitespace).reverse.dropWhile Char.isWhitespace).reverse⟩

/-- Split a character list on a separator character (Go's `strings.Split` with
a one-character separator). -/
def splitOnCharAux (c : Char) : List Char → List Char → List String
  | [], acc => [⟨acc.reverse⟩]
  | x :: xs, acc =>
    if x = c then ⟨acc.reverse⟩ :: splitOnCharAux c xs []
    else splitOnCharAux c xs (x :: acc)

/-- Go's `strings.Split(s, c)` for a one-character separator. -/
def splitOnChar (c : Char) (s : String) : List String :=
  splitOnCharAux c s.data []

/-- Whether the pattern occurs at the head of the list. -/
def leadsWith : List Char → List Char → Bool
  | [], _ => true
  | _ :: _, [] => false
  | p :: ps, x :: xs => p == x && leadsWith ps xs

/-- Whether the pattern occurs anywhere in the list. -/
def containsSeq (pat : List Char) : List Char → Bool
  | [] => pat.isEmpty
  | x :: xs => leadsWith pat (x :: xs) || containsSeq pat xs

/-- Go's `strings.Contains`. -/
def strContains (s pat : String) : Bool :=
  containsSeq pat.data s.data

/-- `GitWorktree` (from `session/git`): main repository path, worktree path and
the instance's branch name. -/
structure GitWorktree where
  repoPath : String
  worktreePath : String
  branchName : String
deriving Repr, DecidableEq

/-- `config.RepoConfig`: the persisted per-repository record caching the
default branch name (the timestamp is irrelevant to the claims). -/
structure RepoConfig where
  repoPath : String
  defaultBranch : String
deriving Repr, DecidableEq

/-- Result of a workspace-manager operation: the Go `(value, error)` pair, the
world state after the operation, and the trace of events it performed. -/
structure GitOut (σ α : Type) where
  res : Except String α
  st : σ
  trace : List Event

/-- `runGitCommand` (worktree_git.go): runs `git -C path args...`; a non-zero
exit status is mapped to an error carrying the captured output. -/
def runGitCommand (exec : Exec σ) (s : σ) (path : String) (args : List String) :
    GitOut σ String :=
  let inv : Invocation := ⟨"git", path, args⟩
  let r := exec s inv
  if r.1.ok then ⟨.ok r.1.output, r.2, [.invoke inv]⟩
  else ⟨.error ("git command failed: " ++ r.1.output), r.2, [.invoke inv]⟩

/-- `GitWorktree.IsDirty`: true iff `git status --porcelain` in the worktree
produces non-empty output. -/
def GitWorktree.isDirty (exec : Exec σ) (g : GitWorktree) (s : σ) : GitOut σ Bool :=
  let o := runGitCommand exec s g.worktreePath ["status", "--porcelain"]
  match o.res with
  | .ok out => ⟨.ok (out != ""), o.st, o.trace⟩
  | .error e => ⟨.error ("failed to check worktree status: " ++ e), o.st, o.trace⟩

/-- `GitWorktree.IsBranchCheckedOut`: compares the trimmed output of
`git branch --show-current` in the main repository with the instance branch. -/
def GitWorktree.isBranchCheckedOut (exec : Exec σ) (g : GitWorktree) (s : σ) :
    GitOut σ Bool :=
  let o := runGitCommand exec s g.repoPath ["branch", "--show-current"]
  match o.res with
  | .ok out => ⟨.ok (strTrim out == g.branchName), o.st, o.trace⟩
  | .error e => ⟨.error ("failed to get current branch: " ++ e), o.st, o.trace⟩

/-- One line of `git remote show origin` output: if the trimmed line contains
"HEAD branch:", split on ":" and return the trimmed second field
(`config.GetDefaultBranch` parsing). -/
def lineDefaultBranch (line : String) : Option String :=
  let t := strTrim line
  if strContains t "HEAD branch:" then
    let parts := splitOnChar ':' t
    if parts.length ≥ 2 then some (strTrim (parts.getD 1 "")) else none
  else none

/-- First line of the remote description that yields a default branch name. -/
def findDefaultBranch : List String → Option String
  | [] => none
  | l :: rest =>
    match lineDefaultBranch l with
    | some b => some b
    | none => findDefaultBranch rest

/-- Result of `config.GetDefaultBranch`: value/error, world state, the
(possibly updated) persisted cache record, and the event trace. -/
structure CfgOut (σ : Type) where
  res : Except String String
  st : σ
  cache : Option RepoConfig
  trace : List Event

/-- Cache-miss path of `config.GetDefaultBranch`: run `git remote show origin`
in the repository, parse the HEAD branch line, and cache the result on success
(`SaveRepoConfig`; a disk write failure is only logged, the successful write is
modelled). -/
def getDefaultBranchRemote (exec : Exec σ) (s : σ) (cache : Option RepoConfig)
    (repoPath : String) : CfgOut σ :=
  let inv : Invocation := ⟨"git", repoPath, ["remote", "show", "origin"]⟩
  let r := exec s inv
  if r.1.ok then
    match findDefaultBranch (splitOnChar '\n' r.1.output) with
    | some db => ⟨.ok db, r.2, some ⟨repoPath, db⟩, [.invoke inv]⟩
    | none => ⟨.error "could not determine default branch from git remote show origin",
        r.2, cache, [.invoke inv]⟩
  else ⟨.error "failed to get default branch", r.2, cache, [.invoke inv]⟩

/-- `config.GetDefaultBranch`: return the cached value when a record with a
non-empty default branch exists, otherwise query the remote and cache. -/
def GetDefaultBranch (exec : Exec σ) (s : σ) (cache : Option RepoConfig)
    (repoPath : String) : CfgOut σ :=
  match cache with
  | some cfg =>
    if cfg.defaultBranch != "" then ⟨.ok cfg.defaultBranch, s, cache, []⟩
    else getDefaultBranchRemote exec s cache repoPath
  | none => getDefaultBranchRemote exec s cache repoPath

/-- `GitWorktree.OpenBranchURL`: check the GitHub CLI, then run
`gh browse --branch <branch>` in the worktree.
Modelled from the spec: `checkGHCLI` (its definition is not under `src/`) is
the resource-absence check for the remote-publish tool (spec section 7c); it is
modelled by the boolean `ghAvailable`. -/
def GitWorktree.openBranchURL (exec : Exec σ) (ghAvailable : Bool) (g : GitWorktree)
    (s : σ) : GitOut σ Unit :=
  if ghAvailable then
    let inv : Invocation := ⟨"gh", g.worktreePath, ["browse", "--branch", g.branchName]⟩
    let r := exec s inv
    if r.1.ok then ⟨.ok (), r.2, [.invoke inv]⟩
    else ⟨.error "failed to open branch URL", r.2, [.invoke inv]⟩
  else ⟨.error "gh CLI is not available", s, []⟩

/-- Publish phase of `GitWorktree.PushChanges`: try `gh repo sync --source -b`
first; if that fails, fall back to `git push -u origin <branch>` (an explicit
first push); then re-sync with `gh repo sync -b`; finally, when requested, open
the branch in the browser, logging (not propagating) any failure. -/
def GitWorktree.pushPublish (exec : Exec σ) (ghAvailable : Bool) (g : GitWorktree)
    (openBranch : Bool) (s : σ) : GitOut σ Unit :=
  let syncInv : Invocation := ⟨"gh", g.worktreePath, ["repo", "sync", "--source", "-b", g.branchName]⟩
  let r1 := exec s syncInv
  let afterFirst : GitOut σ Unit :=
    if r1.1.ok then ⟨.ok (), r1.2, [.invoke syncInv]⟩
    else
      let pushInv : Invocation := ⟨"git", g.worktreePath, ["push", "-u", "origin", g.branchName]⟩
      let r2 := exec r1.2 pushInv
      if r2.1.ok then ⟨.ok (), r2.2, [.invoke syncInv, .invoke pushInv]⟩
      else ⟨.error ("failed to push branch: " ++ r2.1.output), r2.2,
        [.invoke syncInv, .invoke pushInv]⟩
  match afterFirst.res with
  | .error e => ⟨.error e, afterFirst.st, afterFirst.trace⟩
  | .ok _ =>
    let sync2Inv : Invocation := ⟨"gh", g.worktreePath, ["repo", "sync", "-b", g.branchName]⟩
    let r3 := exec afterFirst.st sync2Inv
    if r3.1.ok then
      if openBranch then
        let o := g.openBranchURL exec ghAvailable r3.2
        ⟨.ok (), o.st, afterFirst.trace ++ [.invoke sync2Inv] ++ o.trace⟩
      else ⟨.ok (), r3.2, afterFirst.trace ++ [.invoke sync2Inv]⟩
    else ⟨.error ("failed to sync changes: " ++ r3.1.output), r3.2,
      afterFirst.trace ++ [.invoke sync2Inv]⟩

/-- `GitWorktree.PushChanges`: check the GitHub CLI; check `IsDirty`; when
dirty, stage everything (`git add .`) and commit with the given message
bypassing hooks (`--no-verify`); then publish (`pushPublish`).  Nothing to
commit is not an error: the publish step still runs. -/
def GitWorktree.pushChanges (exec : Exec σ) (ghAvailable : Bool) (g : GitWorktree)
    (commitMessage : String) (openBranch : Bool) (s : σ) : GitOut σ Unit :=
  if ghAvailable then
    let d := g.isDirty exec s
    match d.res with
    | .error e => ⟨.error ("failed to check for changes: " ++ e), d.st, d.trace⟩
    | .ok dirty =>
      if dirty then
        let a := runGitCommand exec d.st g.worktreePath ["add", "."]
        match a.res with
        | .error e => ⟨.error ("failed to stage changes: " ++ e), a.st, d.trace ++ a.trace⟩
        | .ok _ =>
          let c := runGitCommand exec a.st g.worktreePath
            ["commit", "-m", commitMessage, "--no-verify"]
          match c.res with
          | .error e => ⟨.error ("failed to commit changes: " ++ e), c.st,
              d.trace ++ a.trace ++ c.trace⟩
          | .ok _ =>
            let p := g.pushPublish exec ghAvailable openBranch c.st
            ⟨p.res, p.st, d.trace ++ a.trace ++ c.trace ++ p.trace⟩
      else
        let p := g.pushPublish exec ghAvailable openBranch d.st
        ⟨p.res, p.st, d.trace ++ p.trace⟩
  else ⟨.error "gh CLI is not available", s, []⟩

/-- `GitWorktree.abortRebase`: `git rebase --abort` in the worktree. -/
def GitWorktree.abortRebase (exec : Exec σ) (g : GitWorktree) (s : σ) : GitOut σ String :=
  runGitCommand exec s g.worktreePath ["rebase", "--abort"]

/-- Fork-point computation of `RebaseOntoDefault`: try
`git merge-base --fork-point origin/<default>` and fall back to the plain
`git merge-base origin/<default> <current>` if that fails. -/
def GitWorktree.forkPointStep (exec : Exec σ) (g : GitWorktree) (s : σ)
    (defaultBranch currentBranch : String) : GitOut σ String :=
  let f1 := runGitCommand exec s g.worktreePath
    ["merge-base", "--fork-point", "origin/" ++ defaultBranch]
  match f1.res with
  | .ok out => ⟨.ok out, f1.st, f1.trace⟩
  | .error _ =>
    let f2 := runGitCommand exec f1.st g.worktreePath
      ["merge-base", "origin/" ++ defaultBranch, currentBranch]
    match f2.res with
    | .ok out => ⟨.ok out, f2.st, f1.trace ++ f2.trace⟩
    | .error e => ⟨.error ("failed to find merge-base: " ++ e), f2.st, f1.trace ++ f2.trace⟩

/-- Final step of `RebaseOntoDefault`: run
`git rebase --onto origin/<default> <forkPoint> <current>`; if the rebase
fails, automatically run `git rebase --abort` (its own failure is only logged)
before surfacing the rebase error. -/
def GitWorktree.rebaseFinish (exec : Exec σ) (g : GitWorktree) (s : σ)
    (defaultBranch forkPoint currentBranch : String) : GitOut σ Unit :=
  let r := runGitCommand exec s g.worktreePath
    ["rebase", "--onto", "origin/" ++ defaultBranch, forkPoint, currentBranch]
  match r.res with
  | .ok _ => ⟨.ok (), r.st, r.trace⟩
  | .error e =>
    let ab := g.abortRebase exec r.st
    ⟨.error ("rebase failed: " ++ e), ab.st, r.trace ++ ab.trace⟩

/-- Result of `RebaseOntoDefault`: error/unit, world state, the default-branch
cache after the operation, and the event trace. -/
structure RebaseOut (σ : Type) where
  res : Except String Unit
  st : σ
  cache : Option RepoConfig
  trace : List Event

/-- Body of `RebaseOntoDefault` (inside the mutex): resolve the default branch
via the cache, refuse if the worktree is dirty, fetch the remote default
branch, read the current branch, compute the fork point, and rebase onto the
remote default branch tip with automatic abort on failure. -/
def GitWorktree.rebaseCore (exec : Exec σ) (g : GitWorktree) (s : σ)
    (cache : Option RepoConfig) : RebaseOut σ :=
  let db := GetDefaultBranch exec s cache g.repoPath
  match db.res with
  | .error e => ⟨.error ("failed to get default branch: " ++ e), db.st, db.cache, db.trace⟩
  | .ok defaultBranch =>
    let d := g.isDirty exec db.st
    match d.res with
    | .error e => ⟨.error ("failed to check for uncommitted changes: " ++ e), d.st,
        db.cache, db.trace ++ d.trace⟩
    | .ok dirty =>
      if dirty then
        ⟨.error "cannot rebase with uncommitted changes - please commit or stash your changes first",
          d.st, db.cache, db.trace ++ d.trace⟩
      else
        let f := runGitCommand exec d.st g.worktreePath ["fetch", "origin", defaultBranch]
        match f.res with
        | .error e => ⟨.error ("failed to fetch latest changes: " ++ e), f.st, db.cache,
            db.trace ++ d.trace ++ f.trace⟩
        | .ok _ =>
          let cb := runGitCommand exec f.st g.worktreePath ["rev-parse", "--abbrev-ref", "HEAD"]
          match cb.res with
          | .error e => ⟨.error ("failed to get current branch: " ++ e), cb.st, db.cache,
              db.trace ++ d.trace ++ f.trace ++ cb.trace⟩
          | .ok cbOut =>
            let currentBranch := strTrim cbOut
            let fp := g.forkPointStep exec cb.st defaultBranch currentBranch
            match fp.res with
            | .error e => ⟨.error e, fp.st, db.cache,
                db.trace ++ d.trace ++ f.trace ++ cb.trace ++ fp.trace⟩
            | .ok fpOut =>
              let fin := g.rebaseFinish exec fp.st defaultBranch (strTrim fpOut) currentBranch
              ⟨fin.res, fin.st, db.cache,
                db.trace ++ d.trace ++ f.trace ++ cb.trace ++ fp.trace ++ fin.trace⟩

/-- `GitWorktree.RebaseOntoDefault`: the whole body runs while holding the
process-wide `gitMutex` (`gitMutex.Lock()` with a deferred `Unlock()`, so the
release is the last event on every path). -/
def GitWorktree.rebaseOntoDefault (exec : Exec σ) (g : GitWorktree) (s : σ)
    (cache : Option RepoConfig) : RebaseOut σ :=
  let c := g.rebaseCore exec s cache
  ⟨c.res, c.st, c.cache, .lockAcquire :: c.trace ++ [.lockRelease]⟩

/-- Lock discipline over a trace: every mutating invocation happens while the
mutex is held (`d` is the current lock depth). -/
def mutatingUnderLock : Nat → List Event → Bool
  | _, [] => true
  | d, .lockAcquire :: rest => mutatingUnderLock (d + 1) rest
  | d, .lockRelease :: rest => mutatingUnderLock (d - 1) rest
  | d, .invoke i :: rest => (!i.mutating || decide (0 < d)) && mutatingUnderLock d rest

/-- Some event satisfying `p` appears in the trace strictly before an event
satisfying `q`. -/
def followedBy (p q : Event → Bool) : List Event → Bool
  | [] => false
  | e :: rest => (p e && rest.any q) || followedBy p q rest

/-- The `git rebase --onto` invocation. -/
def Event.isRebaseOnto : Event → Bool
  | .invoke ⟨"git", _, "rebase" :: "--onto" :: _⟩ => true
  | _ => false

/-- The `git rebase --abort` invocation. -/
def Event.isRebaseAbort : Event → Bool
  | .invoke ⟨"git", _, ["rebase", "--abort"]⟩ => true
  | _ => false

/-- The `git push` first-push fallback invocation. -/
def Event.isGitPush : Event → Bool
  | .invoke ⟨"git", _, "push" :: _⟩ => true
  | _ => false

/-- A small operational model of the repository driven by the versioning tool,
used to state what `git rebase --abort` restores.  `workDirty` is the user's
uncommitted changes; `conflict` means an in-progress rebase stopped with
conflicts (with `savedTip` the branch tip from before that rebase);
`remoteTip`/`upstreamTip` model the remote-tracking ref and the actual
upstream; `rebaseConflicts` is the fault model deciding whether the next
rebase invocation fails. -/
structure RepoState where
  branchName : String
  workDirty : Bool
  conflict : Bool
  branchTip : Nat
  savedTip : Nat
  remoteTip : Nat
  upstreamTip : Nat
  rebaseConflicts : Bool
deriving Repr, DecidableEq

/-- `git status --porcelain` output in the model: non-empty iff there are
uncommitted changes or an in-progress conflicted rebase. -/
def RepoState.statusOutput (s : RepoState) : String :=
  if s.workDirty || s.conflict then " M file.txt\n" else ""

/-- Semantics of the versioning tool over `RepoState`: status reports the
working-tree state; fetch updates the remote-tracking tip; a rebase either
advances the branch tip past the remote tip or fails leaving an in-progress
conflicted rebase; `rebase --abort` restores the branch tip and clears the
conflict, as git documents. -/
def gitSem : Exec RepoState := fun s i =>
  match i.tool, i.args with
  | "git", "status" :: _ => (⟨true, s.statusOutput⟩, s)
  | "git", "rev-parse" :: _ => (⟨true, s.branchName ++ "\n"⟩, s)
  | "git", "fetch" :: _ => (⟨true, ""⟩, { s with remoteTip := s.upstreamTip })
  | "git", ["merge-base", "--fork-point", _] => (⟨true, "forkpoint\n"⟩, s)
  | "git", ["merge-base", _, _] => (⟨true, "forkpoint\n"⟩, s)
  | "git", ["rebase", "--abort"] =>
    if s.conflict then (⟨true, ""⟩, { s with conflict := false, branchTip := s.savedTip })
    else (⟨false, "fatal: no rebase in progress"⟩, s)
  | "git", "rebase" :: _ =>
    if s.rebaseConflicts then
      (⟨false, "CONFLICT"⟩,
        { s with conflict := true, savedTip := s.branchTip, branchTip := s.remoteTip })
    else (⟨true, ""⟩, { s with branchTip := s.remoteTip + 1 })
  | "git", "remote" :: _ => (⟨true, "  HEAD branch: main\n"⟩, s)
  | "git", "branch" :: _ => (⟨true, s.branchName ++ "\n"⟩, s)
  | _, _ => (⟨false, "unsupported"⟩, s)

/-! ## Instance state machine (app/app.go poll loop) -/

/-- `session.Status`. -/
inductive Status where
  | Running
  | Ready
  | Loading
  | Paused
deriving Repr, DecidableEq

/-- The fields of a `session.Instance` relevant to the poll loop: the
lifecycle flags, the auto-accept flag, the status, and the last captured
output snapshot used for diffing. -/
structure Instance where
  started : Bool
  paused : Bool
  autoYes : Bool
  status : Status
  prevSnapshot : String
deriving Repr, DecidableEq

/-- Modelled from the spec: `Instance.HasUpdated` (its definition is not under
`src/`) captures the terminal content, reports whether it changed since the
last captured snapshot and whether an interactive prompt is detected in it,
and stores the new snapshot (spec sections 3 and 4.3). -/
def Instance.hasUpdated (inst : Instance) (content : String) (promptIn : String → Bool) :
    Bool × Bool × Instance :=
  (content != inst.prevSnapshot, promptIn content, { inst with prevSnapshot := content })

/-- Modelled from the spec: `Instance.TapEnter` (its definition is not under
`src/`) injects a synthetic confirm keystroke only when the instance's
auto-accept flag is set (spec section 4.3, auto-accept path); returns whether a
keystroke was injected. -/
def Instance.tapEnter (inst : Instance) : Bool :=
  inst.autoYes

/-- One poll of one instance, from the `tickUpdateMetadataMessage` handler in
`app.Update`: skip instances not started or paused; on changed content set
Running; on unchanged content tap enter if a prompt is detected, otherwise set
Ready.  Returns the updated instance and whether a keystroke was injected. -/
def pollInstance (inst : Instance) (content : String) (promptIn : String → Bool) :
    Instance × Bool :=
  if !inst.started || inst.paused then (inst, false)
  else
    let r := inst.hasUpdated content promptIn
    if r.1 then ({ r.2.2 with status := .Running }, false)
    else if r.2.1 then (r.2.2, r.2.2.tapEnter)
    else ({ r.2.2 with status := .Ready }, false)

/-! ## Kill gating (app/app.go `keys.KeyKill` action) -/

/-- The state the kill action can change: the persisted instance records
(titles), and whether the instance's workspace and terminal session are
alive. -/
structure KillState where
  records : List String
  workspaceAlive : Bool
  sessionAlive : Bool
deriving Repr, DecidableEq

/-- The kill action from `handleKeyPress` (`keys.KeyKill`): check
`IsBranchCheckedOut`; refuse when the instance's branch is the currently
checked-out branch of the main repository; otherwise delete the persisted
record and kill the instance.
Modelled from the spec: `storage.DeleteInstance` and `list.Kill` (their
definitions are not under `src/`) remove the persisted record and tear down
the instance's worktree and terminal session (spec sections 3 and 8); the
persistence write is modelled as succeeding. -/
def killAction (exec : Exec σ) (g : GitWorktree) (title : String) (ks : KillState)
    (s : σ) : Except String Unit × KillState × σ × List Event :=
  let c := g.isBranchCheckedOut exec s
  match c.res with
  | .error e => (.error e, ks, c.st, c.trace)
  | .ok checkedOut =>
    if checkedOut then
      (.error ("instance " ++ title ++ " is currently checked out"), ks, c.st, c.trace)
    else
      (.ok (), ⟨ks.records.filter (fun t => t != title), false, false⟩, c.st, c.trace)

/-! ## Instance creation limit (app/app.go) -/

/-- `app.GlobalInstanceLimit`. -/
def GlobalInstanceLimit : Nat := 10

/-- UI states relevant to instance creation. -/
inductive UiState where
  | stateDefault
  | stateNew
  | statePromptForName
deriving Repr, DecidableEq

/-- The app-model fields the creation keys touch: how many instances the list
holds and the discrete UI state. -/
structure CreateModel where
  numInstances : Nat
  uiState : UiState
deriving Repr, DecidableEq

/-- The two keys that request creating a new instance. -/
inductive CreateKey where
  | keyNew
  | keyPrompt
deriving Repr, DecidableEq

/-- The `keys.KeyPrompt` and `keys.KeyNew` branches of `handleKeyPress`: both
refuse with an error when the list already holds `GlobalInstanceLimit`
instances; otherwise `keyPrompt` creates and adds a blank instance and enters
the naming state, while `keyNew` enters the prompt-for-name state (the
instance is added on submission). -/
def handleCreateKey (m : CreateModel) (k : CreateKey) : CreateModel × Option String :=
  match k with
  | .keyPrompt =>
    if m.numInstances ≥ GlobalInstanceLimit then
      (m, some "you can't create more than 10 instances")
    else ({ numInstances := m.numInstances + 1, uiState := .stateNew }, none)
  | .keyNew =>
    if m.numInstances ≥ GlobalInstanceLimit then
      (m, some "you can't create more than 10 instances")
    else ({ m with uiState := .statePromptForName }, none)

/-! ## Title entry (app/app.go `stateNew` key handling) -/

/-- The state of the instance being named in `stateNew`: its title, whether it
has been started, and whether it was killed (ctrl+c / esc). -/
structure NewModel where
  title : String
  started : Bool
  killed : Bool
deriving Repr, DecidableEq

/-- Keys handled in `stateNew`. -/
inductive NewKey where
  | enter
  | runes (s : String)
  | backspace
  | space
  | esc
deriving Repr, DecidableEq

/-- The `stateNew` branch of `handleKeyPress`: enter refuses an empty title
and otherwise starts the instance; rune input is refused once the title is 32
characters or longer; backspace drops the last character; space is appended
with no length check; esc kills the pending instance.  Starting and killing
leave `stateNew`, so later keys are ignored.
Modelled from the spec: `Instance.SetTitle` and `Instance.Start` (their
definitions are not under `src/`) set the title of a not-yet-started instance
and start it (spec section 3: title mutable until started); a successful start
is modelled. -/
def handleNewKey (st : NewModel) (k : NewKey) : NewModel × Option String :=
  if st.started || st.killed then (st, none)
  else
    match k with
    | .enter =>
      if st.title.length = 0 then (st, some "title cannot be empty")
      else ({ st with started := true }, none)
    | .runes s =>
      if st.title.length ≥ 32 then (st, some "title cannot be longer than 32 characters")
      else ({ st with title := st.title ++ s }, none)
    | .backspace =>
      if st.title.length = 0 then (st, none)
      else ({ st with title := st.title.dropRight 1 }, none)
    | .space => ({ st with title := st.title ++ " " }, none)
    | .esc => ({ st with killed := true }, none)

/-- Run a sequence of `stateNew` key presses. -/
def runNewKeys (st : NewModel) : List NewKey → NewModel
  | [] => st
  | k :: ks => runNewKeys (handleNewKey st k).1 ks

/-- The state in which `stateNew` is entered: a fresh instance with an empty
title. -/
def newModelInit : NewModel := ⟨"", false, false⟩

/-- Concrete worktree used in counterexamples and witnesses. -/
def gEx : GitWorktree := ⟨"/repo", "/repo/worktrees/feat-x", "alice/feat-x"⟩

/-- A static environment in which the worktree has uncommitted changes and
every tool invocation succeeds. -/
def envDirty : StaticEnv := fun i =>
  match i.args with
  | "status" :: _ => ⟨true, " M file.txt\n"⟩
  | _ => ⟨true, ""⟩

/-- A static environment in which the worktree is clean and every tool
invocation succeeds. -/
def envClean : StaticEnv := fun _ => ⟨true, ""⟩

/-! ## Theorems -/

/-- The trace of `runGitCommand` is exactly its one invocation, whether it
succeeds or fails. -/
theorem runGitCommand_trace (exec : Exec σ) (s : σ) (p : String) (a : List String) :
    (runGitCommand exec s p a).trace = [.invoke ⟨"git", p, a⟩] := by
  unfold runGitCommand
  dsimp only
  split <;> rfl

/-- The trace of `IsDirty` is exactly the status invocation. -/
theorem isDirty_trace (exec : Exec σ) (g : GitWorktree) (s : σ) :
    (GitWorktree.isDirty exec g s).trace =
      [.invoke ⟨"git", g.worktreePath, ["status", "--porcelain"]⟩] := by
  unfold GitWorktree.isDirty
  dsimp only
  split <;> simp_all [runGitCommand_trace]

/-- The trace of `IsBranchCheckedOut` is exactly the branch query. -/
theorem isBranchCheckedOut_trace (exec : Exec σ) (g : GitWorktree) (s : σ) :
    (GitWorktree.isBranchCheckedOut exec g s).trace =
      [.invoke ⟨"git", g.repoPath, ["branch", "--show-current"]⟩] := by
  unfold GitWorktree.isBranchCheckedOut
  dsimp only
  split <;> simp_all [runGitCommand_trace]

/-- The cache-miss path performs exactly the remote description query. -/
theorem getDefaultBranchRemote_trace (exec : Exec σ) (s : σ) (cache : Option RepoConfig)
    (rp : String) :
    (getDefaultBranchRemote exec s cache rp).trace =
      [.invoke ⟨"git", rp, ["remote", "show", "origin"]⟩] := by
  unfold getDefaultBranchRemote
  dsimp only
  split
  · split <;> rfl
  · rfl

/-- `GetDefaultBranch` performs either no invocation (cache hit) or exactly
the remote description query. -/
theorem GetDefaultBranch_trace (exec : Exec σ) (s : σ) (cache : Option RepoConfig)
    (rp : String) :
    (GetDefaultBranch exec s cache rp).trace = [] ∨
    (GetDefaultBranch exec s cache rp).trace =
      [.invoke ⟨"git", rp, ["remote", "show", "origin"]⟩] := by
  unfold GetDefaultBranch
  cases cache with
  | none => exact .inr (getDefaultBranchRemote_trace exec s none rp)
  | some cfg =>
    dsimp only
    split
    · exact .inl rfl
    · exact .inr (getDefaultBranchRemote_trace exec s (some cfg) rp)

/-- No invocation of `GetDefaultBranch` mutates repository state. -/
theorem GetDefaultBranch_trace_nonmut (exec : Exec σ) (s : σ) (cache : Option RepoConfig)
    (rp : String) :
    ((GetDefaultBranch exec s cache rp).trace).all (fun e => !e.mutatingInvoke) = true := by
  rcases GetDefaultBranch_trace exec s cache rp with h | h <;> rw [h] <;> rfl

/-- The trace of `GetDefaultBranch` holds only invocations (no lock events). -/
theorem GetDefaultBranch_trace_invokes (exec : Exec σ) (s : σ) (cache : Option RepoConfig)
    (rp : String) :
    ((GetDefaultBranch exec s cache rp).trace).all Event.isInvoke = true := by
  rcases GetDefaultBranch_trace exec s cache rp with h | h <;> rw [h] <;> rfl

/-- The trace of the fork-point computation holds only invocations. -/
theorem forkPointStep_trace_invokes (exec : Exec σ) (g : GitWorktree) (s : σ)
    (db cb : String) :
    ((GitWorktree.forkPointStep exec g s db cb).trace).all Event.isInvoke = true := by
  unfold GitWorktree.forkPointStep
  dsimp only
  split
  · simp_all [runGitCommand_trace, Event.isInvoke]
  · split <;> simp_all [runGitCommand_trace, List.all_append, Event.isInvoke]

/-- The trace of the rebase-with-automatic-abort step holds only
invocations. -/
theorem rebaseFinish_trace_invokes (exec : Exec σ) (g : GitWorktree) (s : σ)
    (db fp cb : String) :
    ((GitWorktree.rebaseFinish exec g s db fp cb).trace).all Event.isInvoke = true := by
  unfold GitWorktree.rebaseFinish GitWorktree.abortRebase
  dsimp only
  split <;> simp_all [runGitCommand_trace, List.all_append, Event.isInvoke]

/-- The body of `RebaseOntoDefault` produces only invocations: no nested lock
events. -/
theorem rebaseCore_trace_invokes (exec : Exec σ) (g : GitWorktree) (s : σ)
    (cache : Option RepoConfig) :
    ((GitWorktree.rebaseCore exec g s cache).trace).all Event.isInvoke = true := by
  unfold GitWorktree.rebaseCore
  dsimp only
  repeat' split
  all_goals
    simp only [List.all_append, List.all_cons, List.all_nil, Bool.and_eq_true,
      GetDefaultBranch_trace_invokes, isDirty_trace, runGitCommand_trace,
      forkPointStep_trace_invokes, rebaseFinish_trace_invokes]
  all_goals simp [Event.isInvoke]

/-- A trace of invocations executed while the lock is held, closed by the
deferred release, respects the lock discipline. -/
theorem mutatingUnderLock_invokes (l : List Event) (d : Nat)
    (h : l.all Event.isInvoke = true) (hd : 0 < d) :
    mutatingUnderLock d (l ++ [.lockRelease]) = true := by
  induction l with
  | nil => rfl
  | cons e rest ih =>
    cases e with
    | invoke i =>
      have hrest : rest.all Event.isInvoke = true := by simp_all
      simp only [List.cons_append, mutatingUnderLock]
      simp [ih hrest, hd]
    | lockAcquire => simp [Event.isInvoke] at h
    | lockRelease => simp [Event.isInvoke] at h

/-- Claim C3, counterexample: `PushChanges` performs a successful mutating
sequence (stage, commit, first push/sync, re-sync) with no lock event at all,
so not every mutating sequence of external-tool invocations is executed under
the process-wide mutual-exclusion lock. -/
theorem c3_counterexample :
    mutatingUnderLock 0
      ((GitWorktree.pushChanges staticExec true gEx "update" false envDirty).trace) = false ∧
    ((GitWorktree.pushChanges staticExec true gEx "update" false envDirty).trace).any
      Event.mutatingInvoke = true ∧
    (GitWorktree.pushChanges staticExec true gEx "update" false envDirty).res = .ok () := by
  exact ⟨rfl, rfl, rfl⟩

/-- Claim C3, amended: the rebase operation's mutating invocations (fetch,
rebase, abort) are all executed while holding the process-wide `gitMutex`;
`PushChanges`' stage/commit/push sequence is not executed under that lock
(see the counterexample). -/
theorem c3_amended_rebase_under_lock (exec : Exec σ) (g : GitWorktree) (s : σ)
    (cache : Option RepoConfig) :
    mutatingUnderLock 0 ((GitWorktree.rebaseOntoDefault exec g s cache).trace) = true := by
  unfold GitWorktree.rebaseOntoDefault
  dsimp only
  rw [show (Event.lockAcquire :: (GitWorktree.rebaseCore exec g s cache).trace ++
      [Event.lockRelease]) =
      Event.lockAcquire :: ((GitWorktree.rebaseCore exec g s cache).trace ++
      [Event.lockRelease]) from rfl]
  rw [show mutatingUnderLock 0 (Event.lockAcquire ::
      ((GitWorktree.rebaseCore exec g s cache).trace ++ [Event.lockRelease])) =
      mutatingUnderLock 1 ((GitWorktree.rebaseCore exec g s cache).trace ++
      [Event.lockRelease]) from rfl]
  exact mutatingUnderLock_invokes _ 1 (rebaseCore_trace_invokes exec g s cache) Nat.one_pos

/-- Claim C1, counterexample: on a dirty workspace `RebaseOntoDefault` is
rejected with the precondition error, but external-tool invocations are
attempted before the rejection (the status check itself), so the rejection
does not happen before any external-tool invocation. -/
theorem c1_counterexample :
    (GitWorktree.rebaseOntoDefault staticExec gEx envDirty (some ⟨"/repo", "main"⟩)).res =
      .error "cannot rebase with uncommitted changes - please commit or stash your changes first" ∧
    ((GitWorktree.rebaseOntoDefault staticExec gEx envDirty
      (some ⟨"/repo", "main"⟩)).trace).any Event.isInvoke = true := by
  exact ⟨rfl, rfl⟩

/-- Claim C1, amended: whenever the status check reports uncommitted changes
(and the default branch resolves), `RebaseOntoDefault` fails with the
precondition error and performs zero external-tool invocations that mutate
repository state; the rejection happens before any mutating invocation,
though after the read-only default-branch resolution and status check. -/
theorem c1_amended_dirty_rejects (exec : Exec σ) (g : GitWorktree) (s : σ)
    (cache : Option RepoConfig) (db : String) (s1 : σ) (c1 : Option RepoConfig)
    (t1 : List Event) (s2 : σ) (t2 : List Event)
    (hdb : GetDefaultBranch exec s cache g.repoPath = ⟨.ok db, s1, c1, t1⟩)
    (hdirty : GitWorktree.isDirty exec g s1 = ⟨.ok true, s2, t2⟩) :
    (GitWorktree.rebaseOntoDefault exec g s cache).res =
      .error "cannot rebase with uncommitted changes - please commit or stash your changes first" ∧
    ((GitWorktree.rebaseOntoDefault exec g s cache).trace).all
      (fun e => !e.mutatingInvoke) = true := by
  have hnm1 : t1.all (fun e => !e.mutatingInvoke) = true := by
    have h := GetDefaultBranch_trace_nonmut exec s cache g.repoPath
    rw [hdb] at h
    exact h
  have hnm2 : t2.all (fun e => !e.mutatingInvoke) = true := by
    have h := isDirty_trace exec g s1
    rw [hdirty] at h
    dsimp only at h
    rw [h]
    rfl
  unfold GitWorktree.rebaseOntoDefault GitWorktree.rebaseCore
  rw [hdb]
  dsimp only
  rw [hdirty]
  dsimp only
  refine ⟨rfl, ?_⟩
  simp_all [List.all_append, List.all_cons]
  exact ⟨rfl, rfl⟩

/-- `handleNewKey` preserves the invariant that a started instance has a
non-empty title. -/
theorem handleNewKey_title_invariant (st : NewModel) (k : NewKey)
    (h : st.started = true → 1 ≤ st.title.length) :
    (handleNewKey st k).1.started = true → 1 ≤ (handleNewKey st k).1.title.length := by
  unfold handleNewKey
  by_cases hg : st.started || st.killed
  · simpa [hg] using h
  · have hs : st.started = false := by
      cases hstarted : st.started <;> simp_all
    have hk : st.killed = false := by
      cases hkilled : st.killed <;> simp_all
    cases k with
    | enter =>
      by_cases ht : st.title.length = 0
      · simpa [hg, ht] using h
      · intro _
        simpa [hg, hs, hk, ht] using Nat.one_le_iff_ne_zero.mpr ht
    | runes s =>
      by_cases ht : st.title.length ≥ 32 <;> simp [hg, ht, hs, hk]
    | backspace =>
      by_cases ht : st.title.length = 0 <;> simp [hg, ht, hs, hk]
    | space => simp [hg, hs, hk]
    | esc => simp [hg, hs, hk]

/-- Running any key sequence preserves the started-implies-nonempty-title
invariant. -/
theorem runNewKeys_title_invariant (ks : List NewKey) : ∀ st : NewModel,
    (st.started = true → 1 ≤ st.title.length) →
    ((runNewKeys st ks).started = true → 1 ≤ (runNewKeys st ks).title.length) := by
  induction ks with
  | nil => intro st h; exact h
  | cons k ks ih => intro st h; exact ih _ (handleNewKey_title_invariant st k h)

/-- Witness for `c1_amended_dirty_rejects` in a concrete dirty environment
with a cache hit for the default branch. -/
theorem c1_witness :
    GetDefaultBranch staticExec envDirty (some ⟨"/repo", "main"⟩) gEx.repoPath =
      ⟨.ok "main", envDirty, some ⟨"/repo", "main"⟩, []⟩ ∧
    GitWorktree.isDirty staticExec gEx envDirty =
      ⟨.ok true, envDirty, [.invoke ⟨"git", gEx.worktreePath, ["status", "--porcelain"]⟩]⟩ ∧
    ((GitWorktree.rebaseOntoDefault staticExec gEx envDirty (some ⟨"/repo", "main"⟩)).res =
      .error "cannot rebase with uncommitted changes - please commit or stash your changes first" ∧
    ((GitWorktree.rebaseOntoDefault staticExec gEx envDirty
      (some ⟨"/repo", "main"⟩)).trace).all (fun e => !e.mutatingInvoke) = true) :=
  ⟨rfl, rfl,
    c1_amended_dirty_rejects staticExec gEx envDirty (some ⟨"/repo", "main"⟩) "main"
      envDirty (some ⟨"/repo", "main"⟩) [] envDirty
      [.invoke ⟨"git", gEx.worktreePath, ["status", "--porcelain"]⟩] rfl rfl⟩

/-- Claim C2: when the rebase step of `RebaseOntoDefault` fails (the only step
that can fail after the rebase has begun), the in-progress rebase is aborted
automatically before the error is returned — the trace contains the
`rebase --abort` invocation after the failed `rebase --onto` invocation — and
a subsequent `IsDirty`/status check shows the workspace in the same state as
immediately before the rebase began: same status output, same branch tip, no
rebase left in progress. -/
theorem c2_rebase_failure_aborts (bn rp db : String) (bt sv rt ut : Nat)
    (g : GitWorktree) (hdb : db ≠ "") :
    (∃ msg, (GitWorktree.rebaseOntoDefault gitSem g ⟨bn, false, false, bt, sv, rt, ut, true⟩
      (some ⟨rp, db⟩)).res = Except.error msg) ∧
    followedBy Event.isRebaseOnto Event.isRebaseAbort
      ((GitWorktree.rebaseOntoDefault gitSem g ⟨bn, false, false, bt, sv, rt, ut, true⟩
        (some ⟨rp, db⟩)).trace) = true ∧
    (GitWorktree.rebaseOntoDefault gitSem g ⟨bn, false, false, bt, sv, rt, ut, true⟩
      (some ⟨rp, db⟩)).st.statusOutput =
      RepoState.statusOutput ⟨bn, false, false, bt, sv, rt, ut, true⟩ ∧
    (GitWorktree.isDirty gitSem g ((GitWorktree.rebaseOntoDefault gitSem g
      ⟨bn, false, false, bt, sv, rt, ut, true⟩ (some ⟨rp, db⟩)).st)).res =
      (GitWorktree.isDirty gitSem g ⟨bn, false, false, bt, sv, rt, ut, true⟩).res ∧
    (GitWorktree.rebaseOntoDefault gitSem g ⟨bn, false, false, bt, sv, rt, ut, true⟩
      (some ⟨rp, db⟩)).st.branchTip = bt ∧
    (GitWorktree.rebaseOntoDefault gitSem g ⟨bn, false, false, bt, sv, rt, ut, true⟩
      (some ⟨rp, db⟩)).st.workDirty = false ∧
    (GitWorktree.rebaseOntoDefault gitSem g ⟨bn, false, false, bt, sv, rt, ut, true⟩
      (some ⟨rp, db⟩)).st.conflict = false := by
  have hGDB : GetDefaultBranch gitSem (⟨bn, false, false, bt, sv, rt, ut, true⟩ : RepoState)
      (some ⟨rp, db⟩) g.repoPath =
      ⟨.ok db, ⟨bn, false, false, bt, sv, rt, ut, true⟩, some ⟨rp, db⟩, []⟩ := by
    simp [GetDefaultBranch, bne_iff_ne.mpr hdb]
  unfold GitWorktree.rebaseOntoDefault GitWorktree.rebaseCore
  dsimp only
  rw [hGDB]
  exact ⟨⟨_, rfl⟩, rfl, rfl, rfl, rfl, rfl, rfl⟩

/-- Witness for `c2_rebase_failure_aborts` at concrete names and tips. -/
theorem c2_witness :
    ("main" : String) ≠ "" ∧
    (∃ msg, (GitWorktree.rebaseOntoDefault gitSem gEx
      ⟨"alice/feat-x", false, false, 5, 0, 3, 7, true⟩
      (some ⟨"/repo", "main"⟩)).res = Except.error msg) ∧
    (GitWorktree.rebaseOntoDefault gitSem gEx
      ⟨"alice/feat-x", false, false, 5, 0, 3, 7, true⟩
      (some ⟨"/repo", "main"⟩)).st.branchTip = 5 :=
  ⟨by decide,
    (c2_rebase_failure_aborts "alice/feat-x" "/repo" "main" 5 0 3 7 gEx (by decide)).1,
    (c2_rebase_failure_aborts "alice/feat-x" "/repo" "main" 5 0 3 7 gEx
      (by decide)).2.2.2.2.1⟩

/-- Claim C4: for every workspace, `Push` with nothing to commit is treated as
success — no stage/commit invocation happens, the publish/sync step still runs
and the operation succeeds — and on a dirty workspace `Push` stages all
changes and creates a commit with the given message bypassing commit hooks
(`--no-verify`) before publishing. -/
theorem c4_push_commit_semantics (E : StaticEnv) (g : GitWorktree) (msg : String) :
    ((E ⟨"git", g.worktreePath, ["status", "--porcelain"]⟩ = ⟨true, ""⟩) →
      ((E ⟨"gh", g.worktreePath, ["repo", "sync", "--source", "-b", g.branchName]⟩).ok = true) →
      ((E ⟨"gh", g.worktreePath, ["repo", "sync", "-b", g.branchName]⟩).ok = true) →
      GitWorktree.pushChanges staticExec true g msg false E =
        ⟨.ok (), E,
          [.invoke ⟨"git", g.worktreePath, ["status", "--porcelain"]⟩,
           .invoke ⟨"gh", g.worktreePath, ["repo", "sync", "--source", "-b", g.branchName]⟩,
           .invoke ⟨"gh", g.worktreePath, ["repo", "sync", "-b", g.branchName]⟩]⟩) ∧
    (∀ out : String,
      (E ⟨"git", g.worktreePath, ["status", "--porcelain"]⟩ = ⟨true, out⟩) → out ≠ "" →
      ((E ⟨"git", g.worktreePath, ["add", "."]⟩).ok = true) →
      ((E ⟨"git", g.worktreePath, ["commit", "-m", msg, "--no-verify"]⟩).ok = true) →
      ((E ⟨"gh", g.worktreePath, ["repo", "sync", "--source", "-b", g.branchName]⟩).ok = true) →
      ((E ⟨"gh", g.worktreePath, ["repo", "sync", "-b", g.branchName]⟩).ok = true) →
      GitWorktree.pushChanges staticExec true g msg false E =
        ⟨.ok (), E,
          [.invoke ⟨"git", g.worktreePath, ["status", "--porcelain"]⟩,
           .invoke ⟨"git", g.worktreePath, ["add", "."]⟩,
           .invoke ⟨"git", g.worktreePath, ["commit", "-m", msg, "--no-verify"]⟩,
           .invoke ⟨"gh", g.worktreePath, ["repo", "sync", "--source", "-b", g.branchName]⟩,
           .invoke ⟨"gh", g.worktreePath, ["repo", "sync", "-b", g.branchName]⟩]⟩) := by
  constructor
  · intro hstat hs1 hs2
    simp [GitWorktree.pushChanges, GitWorktree.isDirty, GitWorktree.pushPublish,
      runGitCommand, staticExec, hstat, hs1, hs2]
  · intro out hstat hout hadd hcommit hs1 hs2
    simp [GitWorktree.pushChanges, GitWorktree.isDirty, GitWorktree.pushPublish,
      runGitCommand, staticExec, hstat, bne_iff_ne.mpr hout, hadd, hcommit, hs1, hs2]

/-- Witness for `c4_push_commit_semantics`: the clean-workspace conjunct in
`envClean` and the dirty-workspace conjunct in `envDirty`. -/
theorem c4_witness :
    GitWorktree.pushChanges staticExec true gEx "update" false envClean =
      ⟨.ok (), envClean,
        [.invoke ⟨"git", gEx.worktreePath, ["status", "--porcelain"]⟩,
         .invoke ⟨"gh", gEx.worktreePath, ["repo", "sync", "--source", "-b", gEx.branchName]⟩,
         .invoke ⟨"gh", gEx.worktreePath, ["repo", "sync", "-b", gEx.branchName]⟩]⟩ ∧
    GitWorktree.pushChanges staticExec true gEx "update" false envDirty =
      ⟨.ok (), envDirty,
        [.invoke ⟨"git", gEx.worktreePath, ["status", "--porcelain"]⟩,
         .invoke ⟨"git", gEx.worktreePath, ["add", "."]⟩,
         .invoke ⟨"git", gEx.worktreePath, ["commit", "-m", "update", "--no-verify"]⟩,
         .invoke ⟨"gh", gEx.worktreePath, ["repo", "sync", "--source", "-b", gEx.branchName]⟩,
         .invoke ⟨"gh", gEx.worktreePath, ["repo", "sync", "-b", gEx.branchName]⟩]⟩ :=
  ⟨(c4_push_commit_semantics envClean gEx "update").1 rfl rfl rfl,
   (c4_push_commit_semantics envDirty gEx "update").2 " M file.txt\n" rfl (by decide)
     rfl rfl rfl rfl⟩

/-- Claim C7: publishing attempts the sync primitive first — when it succeeds
no fallback `git push` is invoked; only when it fails is the explicit first
push attempted, after which the re-sync runs; and a failure to open the
published branch in the browser is never propagated: with both syncs
succeeding, `Push` with the open flag returns success whatever the browse
invocation does. -/
theorem c7_publish_fallback (E : StaticEnv) (g : GitWorktree) (msg : String)
    (hstat : E ⟨"git", g.worktreePath, ["status", "--porcelain"]⟩ = ⟨true, ""⟩) :
    (((E ⟨"gh", g.worktreePath, ["repo", "sync", "--source", "-b", g.branchName]⟩).ok = true) →
      (GitWorktree.pushChanges staticExec true g msg false E).trace =
        [.invoke ⟨"git", g.worktreePath, ["status", "--porcelain"]⟩,
         .invoke ⟨"gh", g.worktreePath, ["repo", "sync", "--source", "-b", g.branchName]⟩,
         .invoke ⟨"gh", g.worktreePath, ["repo", "sync", "-b", g.branchName]⟩]) ∧
    (((E ⟨"gh", g.worktreePath, ["repo", "sync", "--source", "-b", g.branchName]⟩).ok = false) →
      ((E ⟨"git", g.worktreePath, ["push", "-u", "origin", g.branchName]⟩).ok = true) →
      (GitWorktree.pushChanges staticExec true g msg false E).trace =
        [.invoke ⟨"git", g.worktreePath, ["status", "--porcelain"]⟩,
         .invoke ⟨"gh", g.worktreePath, ["repo", "sync", "--source", "-b", g.branchName]⟩,
         .invoke ⟨"git", g.worktreePath, ["push", "-u", "origin", g.branchName]⟩,
         .invoke ⟨"gh", g.worktreePath, ["repo", "sync", "-b", g.branchName]⟩]) ∧
    (((E ⟨"gh", g.worktreePath, ["repo", "sync", "--source", "-b", g.branchName]⟩).ok = true) →
      ((E ⟨"gh", g.worktreePath, ["repo", "sync", "-b", g.branchName]⟩).ok = true) →
      (GitWorktree.pushChanges staticExec true g msg true E).res = .ok ()) := by
  refine ⟨?_, ?_, ?_⟩
  · intro hs1
    by_cases hs2 : (E ⟨"gh", g.worktreePath, ["repo", "sync", "-b", g.branchName]⟩).ok = true <;>
      simp [GitWorktree.pushChanges, GitWorktree.isDirty, GitWorktree.pushPublish,
        runGitCommand, staticExec, hstat, hs1, hs2]
  · intro hs1 hpush
    by_cases hs2 : (E ⟨"gh", g.worktreePath, ["repo", "sync", "-b", g.branchName]⟩).ok = true <;>
      simp [GitWorktree.pushChanges, GitWorktree.isDirty, GitWorktree.pushPublish,
        runGitCommand, staticExec, hstat, hs1, hpush, hs2]
  · intro hs1 hs2
    by_cases hbr : (E ⟨"gh", g.worktreePath, ["browse", "--branch", g.branchName]⟩).ok = true <;>
      simp [GitWorktree.pushChanges, GitWorktree.isDirty, GitWorktree.pushPublish,
        GitWorktree.openBranchURL, runGitCommand, staticExec, hstat, hs1, hs2, hbr]

/-- A static environment in which the sync primitive fails (e.g. the branch
does not yet exist remotely), the explicit push succeeds, and the browse
invocation fails. -/
def envNoRemoteBranch : StaticEnv := fun i =>
  match i.args with
  | "repo" :: "sync" :: "--source" :: _ => ⟨false, ""⟩
  | "browse" :: _ => ⟨false, ""⟩
  | _ => ⟨true, ""⟩

/-- Witness for `c7_publish_fallback`: the fallback-push conjunct in
`envNoRemoteBranch`, and the browse-failure-not-propagated conjunct in
`envClean` with a failing browse invocation. -/
theorem c7_witness :
    (GitWorktree.pushChanges staticExec true gEx "update" false envNoRemoteBranch).trace =
      [.invoke ⟨"git", gEx.worktreePath, ["status", "--porcelain"]⟩,
       .invoke ⟨"gh", gEx.worktreePath, ["repo", "sync", "--source", "-b", gEx.branchName]⟩,
       .invoke ⟨"git", gEx.worktreePath, ["push", "-u", "origin", gEx.branchName]⟩,
       .invoke ⟨"gh", gEx.worktreePath, ["repo", "sync", "-b", gEx.branchName]⟩] ∧
    (GitWorktree.pushChanges staticExec true gEx "update" true envClean).res = .ok () :=
  ⟨(c7_publish_fallback envNoRemoteBranch gEx "update" rfl).2.1 rfl rfl,
   (c7_publish_fallback envClean gEx "update" rfl).2.2 rfl rfl⟩

/-- Claim C8: resolving the default branch queries the remote only on cache
miss — a cached non-empty value is returned with no external-tool invocation —
and after a successful remote query the parsed result is cached, so a
subsequent call returns the same value from the cache with no invocation. -/
theorem c8_default_branch_cache (E : StaticEnv) (rp : String) :
    (∀ cfg : RepoConfig, cfg.defaultBranch ≠ "" →
      GetDefaultBranch staticExec E (some cfg) rp = ⟨.ok cfg.defaultBranch, E, some cfg, []⟩) ∧
    (∀ (out db : String),
      E ⟨"git", rp, ["remote", "show", "origin"]⟩ = ⟨true, out⟩ →
      findDefaultBranch (splitOnChar '\n' out) = some db → db ≠ "" →
      GetDefaultBranch staticExec E none rp =
        ⟨.ok db, E, some ⟨rp, db⟩, [.invoke ⟨"git", rp, ["remote", "show", "origin"]⟩]⟩ ∧
      GetDefaultBranch staticExec E (some ⟨rp, db⟩) rp = ⟨.ok db, E, some ⟨rp, db⟩, []⟩) := by
  constructor
  · intro cfg hne
    simp [GetDefaultBranch, bne_iff_ne.mpr hne]
  · intro out db hremote hparse hne
    constructor
    · simp [GetDefaultBranch, getDefaultBranchRemote, staticExec, hremote, hparse]
    · simp [GetDefaultBranch, bne_iff_ne.mpr hne]

/-- A static environment whose remote description reports a HEAD branch. -/
def envRemote : StaticEnv := fun i =>
  match i.args with
  | "remote" :: _ => ⟨true, "* remote origin\n  Fetch URL: x\n  HEAD branch: main\n"⟩
  | _ => ⟨true, ""⟩

/-- Witness for `c8_default_branch_cache`: a concrete cache miss followed by a
cache hit in `envRemote`. -/
theorem c8_witness :
    GetDefaultBranch staticExec envRemote none "/repo" =
      ⟨.ok "main", envRemote, some ⟨"/repo", "main"⟩,
        [.invoke ⟨"git", "/repo", ["remote", "show", "origin"]⟩]⟩ ∧
    GetDefaultBranch staticExec envRemote (some ⟨"/repo", "main"⟩) "/repo" =
      ⟨.ok "main", envRemote, some ⟨"/repo", "main"⟩, []⟩ :=
  (c8_default_branch_cache envRemote "/repo").2
    "* remote origin\n  Fetch URL: x\n  HEAD branch: main\n" "main" rfl (by decide) (by decide)

/-- Claim C5: the kill action is refused, with no state change and no
deletion, whenever the instance's branch equals the main repository's
currently checked-out branch; otherwise it succeeds, removing the persisted
record and tearing down the instance's workspace and terminal session. -/
theorem c5_kill_gating (E : StaticEnv) (g : GitWorktree) (title : String)
    (ks : KillState) :
    (∀ out : String,
      E ⟨"git", g.repoPath, ["branch", "--show-current"]⟩ = ⟨true, out⟩ →
      strTrim out = g.branchName →
      killAction staticExec g title ks E =
        (.error ("instance " ++ title ++ " is currently checked out"), ks, E,
          [.invoke ⟨"git", g.repoPath, ["branch", "--show-current"]⟩])) ∧
    (∀ out : String,
      E ⟨"git", g.repoPath, ["branch", "--show-current"]⟩ = ⟨true, out⟩ →
      strTrim out ≠ g.branchName →
      killAction staticExec g title ks E =
        (.ok (), ⟨ks.records.filter (fun t => t != title), false, false⟩, E,
          [.invoke ⟨"git", g.repoPath, ["branch", "--show-current"]⟩]) ∧
      title ∉ ks.records.filter (fun t => t != title)) := by
  constructor
  · intro out hbranch heq
    simp [killAction, GitWorktree.isBranchCheckedOut, runGitCommand, staticExec,
      hbranch, heq]
  · intro out hbranch hne
    refine ⟨?_, ?_⟩
    · simp [killAction, GitWorktree.isBranchCheckedOut, runGitCommand, staticExec,
        hbranch, hne]
    · simp [List.mem_filter]

/-- A static environment in which the main repository has `alice/feat-x`
checked out. -/
def envCheckedOut : StaticEnv := fun i =>
  match i.args with
  | "branch" :: _ => ⟨true, "alice/feat-x\n"⟩
  | _ => ⟨true, ""⟩

/-- Witness for `c5_kill_gating`: refusal for the checked-out branch, success
(with record removal and teardown) for a different branch. -/
theorem c5_witness :
    killAction staticExec gEx "feat-x" ⟨["feat-x", "other"], true, true⟩ envCheckedOut =
      (.error "instance feat-x is currently checked out",
        ⟨["feat-x", "other"], true, true⟩, envCheckedOut,
        [.invoke ⟨"git", "/repo", ["branch", "--show-current"]⟩]) ∧
    (killAction staticExec ⟨"/repo", "/repo/worktrees/other", "bob/other"⟩ "other"
      ⟨["feat-x", "other"], true, true⟩ envCheckedOut =
      (.ok (),
        ⟨(["feat-x", "other"] : List String).filter (fun t => t != "other"), false, false⟩,
        envCheckedOut, [.invoke ⟨"git", "/repo", ["branch", "--show-current"]⟩]) ∧
      "other" ∉ (["feat-x", "other"] : List String).filter (fun t => t != "other")) :=
  ⟨(c5_kill_gating envCheckedOut gEx "feat-x" ⟨["feat-x", "other"], true, true⟩).1
      "alice/feat-x\n" rfl (by decide),
   (c5_kill_gating envCheckedOut ⟨"/repo", "/repo/worktrees/other", "bob/other"⟩ "other"
      ⟨["feat-x", "other"], true, true⟩).2 "alice/feat-x\n" rfl (by decide)⟩

/-- Claim C9: every request to create a new instance (via the new-instance key
or the prompt key) is refused with the instance-limit error when the list
already holds `GlobalInstanceLimit = 10` (or more) instances, and the model is
unchanged: no instance is added and no creation state is entered. -/
theorem c9_instance_limit (m : CreateModel) (k : CreateKey)
    (h : GlobalInstanceLimit ≤ m.numInstances) :
    handleCreateKey m k = (m, some "you can't create more than 10 instances") := by
  cases k <;> simp [handleCreateKey, h]

/-- Witness for `c9_instance_limit` at ten instances and the new-instance
key. -/
theorem c9_witness :
    GlobalInstanceLimit ≤ (CreateModel.mk 10 .stateDefault).numInstances ∧
    handleCreateKey ⟨10, .stateDefault⟩ .keyNew =
      (⟨10, .stateDefault⟩, some "you can't create more than 10 instances") :=
  ⟨by decide, c9_instance_limit ⟨10, .stateDefault⟩ .keyNew (by decide)⟩

/-- Claim C10, counterexample: a 32-character title is accepted, a space key
press is appended without any length check, and enter then starts the
instance — a started instance with a 33-character title, refuting that every
started instance has a title of length at most 32. -/
theorem c10_counterexample :
    (runNewKeys newModelInit
      [.runes "aaaaaaaaaaaaaaaaaaaaaaaaaaaaaaaa", .space, .enter]).started = true ∧
    32 < (runNewKeys newModelInit
      [.runes "aaaaaaaaaaaaaaaaaaaaaaaaaaaaaaaa", .space, .enter]).title.length := by
  decide

/-- Claim C10, amended: pressing enter with an empty title yields an error and
the instance is not started; rune entry is refused with an error once the
title has reached 32 characters; and every started instance has a non-empty
title.  (The space key is appended without a length check and one runes event
may carry several characters, so a started title may exceed 32 characters.) -/
theorem c10_amended_title_rules :
    (∀ st : NewModel, st.started = false → st.killed = false → st.title = "" →
      handleNewKey st .enter = (st, some "title cannot be empty")) ∧
    (∀ (st : NewModel) (s : String), st.started = false → st.killed = false →
      32 ≤ st.title.length →
      handleNewKey st (.runes s) = (st, some "title cannot be longer than 32 characters")) ∧
    (∀ ks : List NewKey, (runNewKeys newModelInit ks).started = true →
      1 ≤ (runNewKeys newModelInit ks).title.length) := by
  refine ⟨?_, ?_, ?_⟩
  · intro st h1 h2 h3
    simp [handleNewKey, h1, h2, h3]
  · intro st s h1 h2 h3
    simp [handleNewKey, h1, h2, h3]
  · intro ks
    exact runNewKeys_title_invariant ks newModelInit (by simp [newModelInit])

/-- Witness for `c10_amended_title_rules`: the empty-title refusal, the
32-character rune refusal, and the non-empty title of a concretely started
instance. -/
theorem c10_witness :
    handleNewKey ⟨"", false, false⟩ .enter = (⟨"", false, false⟩, some "title cannot be empty") ∧
    handleNewKey ⟨"aaaaaaaaaaaaaaaaaaaaaaaaaaaaaaaa", false, false⟩ (.runes "b") =
      (⟨"aaaaaaaaaaaaaaaaaaaaaaaaaaaaaaaa", false, false⟩,
        some "title cannot be longer than 32 characters") ∧
    1 ≤ (runNewKeys newModelInit [.runes "feat-x", .enter]).title.length :=
  ⟨c10_amended_title_rules.1 ⟨"", false, false⟩ rfl rfl rfl,
   c10_amended_title_rules.2.1 ⟨"aaaaaaaaaaaaaaaaaaaaaaaaaaaaaaaa", false, false⟩ "b"
     rfl rfl (by decide),
   c10_amended_title_rules.2.2 [.runes "feat-x", .enter] (by decide)⟩

/-- Claim C6, counterexample: two consecutive polls that capture identical
content can change the instance state — the first poll sees fresh content and
sets Running, the second poll (same content) settles to Ready. -/
theorem c6_counterexample :
    (pollInstance ⟨true, false, false, .Loading, ""⟩ "output" (fun _ => false)).1.status =
      .Running ∧
    (pollInstance (pollInstance ⟨true, false, false, .Loading, ""⟩ "output"
      (fun _ => false)).1 "output" (fun _ => false)).1.status = .Ready ∧
    (pollInstance (pollInstance ⟨true, false, false, .Loading, ""⟩ "output"
      (fun _ => false)).1 "output" (fun _ => false)).1 ≠
      (pollInstance ⟨true, false, false, .Loading, ""⟩ "output" (fun _ => false)).1 ∧
    (pollInstance ⟨true, false, false, .Loading, ""⟩ "output" (fun _ => false)).2 = false ∧
    (pollInstance (pollInstance ⟨true, false, false, .Loading, ""⟩ "output"
      (fun _ => false)).1 "output" (fun _ => false)).2 = false := by
  refine ⟨rfl, rfl, ?_, rfl, rfl⟩
  decide

/-- Claim C6, amended: on every poll of a started, non-paused instance,
changed content sets Running and injects nothing; unchanged content with no
prompt sets Ready and injects nothing; unchanged content with a prompt and the
auto-accept flag injects a confirm keystroke and leaves the status unchanged
instead of settling to Ready; a keystroke is injected only when a prompt is
detected; and a poll with unchanged content and no prompt on an instance
already settled to Ready leaves the instance entirely unchanged.  (Of two
consecutive polls with identical content the first may still change the
status, from Running to Ready.) -/
theorem c6_amended_poll_transitions (inst : Instance) (c : String) (pf : String → Bool)
    (hs : inst.started = true) (hp : inst.paused = false) :
    (c ≠ inst.prevSnapshot →
      (pollInstance inst c pf).1.status = .Running ∧ (pollInstance inst c pf).2 = false) ∧
    (c = inst.prevSnapshot → pf c = false →
      (pollInstance inst c pf).1.status = .Ready ∧ (pollInstance inst c pf).2 = false) ∧
    (c = inst.prevSnapshot → pf c = true → inst.autoYes = true →
      (pollInstance inst c pf).2 = true ∧ (pollInstance inst c pf).1.status = inst.status) ∧
    ((pollInstance inst c pf).2 = true → pf c = true) ∧
    (c = inst.prevSnapshot → pf c = false → inst.status = .Ready →
      (pollInstance inst c pf).1 = inst) := by
  obtain ⟨s1, p1, a1, st1, ps1⟩ := inst
  simp only at hs hp
  subst hs hp
  refine ⟨?_, ?_, ?_, ?_, ?_⟩
  · intro hne
    simp only at hne
    simp [pollInstance, Instance.hasUpdated, bne_iff_ne, hne]
  · intro heq hpf
    simp only at heq
    subst heq
    simp [pollInstance, Instance.hasUpdated, hpf]
  · intro heq hpf ha
    simp only at heq ha
    subst heq ha
    simp [pollInstance, Instance.hasUpdated, Instance.tapEnter, hpf]
  · intro hinj
    by_cases heq : c = ps1
    · subst heq
      by_cases hpf : pf c = true
      · exact hpf
      · simp [pollInstance, Instance.hasUpdated, hpf] at hinj
    · simp [pollInstance, Instance.hasUpdated, bne_iff_ne, heq] at hinj
  · intro heq hpf hst
    simp only at heq hst
    subst heq hst
    simp [pollInstance, Instance.hasUpdated, hpf]

/-- Witness for `c6_amended_poll_transitions` on a started, non-paused
instance with auto-accept set, unchanged content and a detected prompt: a
keystroke is injected and the status stays Running. -/
theorem c6_witness :
    (pollInstance ⟨true, false, true, .Running, "ask?"⟩ "ask?" (fun _ => true)).2 = true ∧
    (pollInstance ⟨true, false, true, .Running, "ask?"⟩ "ask?"
      (fun _ => true)).1.status = .Running :=
  (c6_amended_poll_transitions ⟨true, false, true, .Running, "ask?"⟩ "ask?"
    (fun _ => true) rfl rfl).2.2.1 rfl rfl rfl

end AgentFarmer
